import Mathlib

/-!
Shallow embedding of the Quadranet widget portal (src/src/App.jsx):
sanitization (`clean`), key normalization (`normaliseKey`), the alias
table (`KEY_ALIAS`), field resolution (`getValFromRow`), catalog
construction (`useSheetData`'s row mapping), the resilient fetch loop,
and the search/facet query pipeline, together with theorems settling
the specification claims.
-/

namespace QuadranetPortal

/-! ## String primitives translated from the JavaScript builtins -/

/-- The whitespace class used by JS `trim` / `\s` (ASCII fragment). -/
def wsp (c : Char) : Bool := c.isWhitespace

/-- `String.prototype.trim` on the character list: drop whitespace from
both ends. -/
def trimL (l : List Char) : List Char :=
  ((l.dropWhile wsp).reverse.dropWhile wsp).reverse

/-- JS `v.trim()`. -/
def jsTrim (s : String) : String := ⟨trimL s.data⟩

/-- JS `v.toLowerCase()` (basic-latin fragment). -/
def jsToLower (s : String) : String := ⟨s.data.map Char.toLower⟩

/-- JS `v.toUpperCase()` (basic-latin fragment). -/
def jsToUpper (s : String) : String := ⟨s.data.map Char.toUpper⟩

/-- JS `a || b` on strings: the empty string is falsy. -/
def jsOr (a b : String) : String := if a = "" then b else a

/-- One pass of `replace(/\s+/g, "_")`: every maximal whitespace run
becomes a single underscore.  The boolean records whether the previous
character was part of a whitespace run. -/
def collapseWsAux : Bool → List Char → List Char
  | _, [] => []
  | prevWs, c :: cs =>
    if wsp c then
      if prevWs then collapseWsAux true cs else '_' :: collapseWsAux true cs
    else c :: collapseWsAux false cs

/-! ## Sanitizer and key normalizer (App.jsx lines 21-36) -/

/-- The sentinel blacklist from `clean` (App.jsx line 24). -/
def badTokens : List String := ["#ERROR!", "#N/A", "N/A", "NULL", "UNDEFINED"]

/-- `clean` (App.jsx lines 21-26): trim; empty stays empty; a trimmed
value whose uppercasing is a sentinel token becomes empty; anything
else is returned trimmed. -/
def clean (v : String) : String :=
  if jsTrim v = "" then ""
  else if badTokens.contains (jsToUpper (jsTrim v)) then "" else jsTrim v

/-- `normaliseKey` (App.jsx line 36):
`k.toString().trim().toLowerCase().replace(/\s+/g, "_")`. -/
def normaliseKey (k : String) : String :=
  ⟨collapseWsAux false ((trimL k.data).map Char.toLower)⟩

/-! ## Records and the alias resolver (App.jsx lines 39-71) -/

/-- A parsed row: JS object from string keys to string values. -/
abbrev Record := List (String × String)

/-- JS property read `row[k]`: `none` models `undefined`. -/
def rowGet (r : Record) (k : String) : Option String :=
  (r.find? (fun kv => kv.1 == k)).map (fun kv => kv.2)

/-- `KEY_ALIAS` (App.jsx lines 39-51), in declaration order. -/
def KEY_ALIAS : List (String × String) :=
  [("brand name", "brand_name"),
   ("official website", "website_url"),
   ("website url", "website_url"),
   ("maps url", "maps_url"),
   ("widget url (canonical)", "booking_widget_url"),
   ("iframe url", "booking_widget_url"),
   ("view url", "booking_widget_url"),
   ("logo url", "logo_url_full"),
   ("area__town__city", "area_town_city"),
   ("search_tags", "tags"),
   ("region/country", "region")]

/-- JS object read `KEY_ALIAS[nk]`. -/
def keyAlias (k : String) : Option String :=
  (KEY_ALIAS.find? (fun kv => kv.1 == k)).map (fun kv => kv.2)

/-- `getValFromRow` (App.jsx lines 53-60).  `row[nk]` is truthy exactly
when the key is present with a non-empty value. -/
def getValFromRow (row : Record) (key : String) : String :=
  if (rowGet row (normaliseKey key)).getD "" ≠ "" then
    clean ((rowGet row (normaliseKey key)).getD "")
  else
    match keyAlias (normaliseKey key) with
    | some a => clean ((rowGet row (normaliseKey a)).getD "")
    | none => ""

/-- `getCityFromRow` (App.jsx lines 63-71): alias-tolerant area lookup. -/
def getCityFromRow (row : Record) : String :=
  clean (jsOr (getValFromRow row "area_town_city")
        (jsOr (getValFromRow row "area/town/city")
        (jsOr (getValFromRow row "Area/Town/City")
        (jsOr (getValFromRow row "area__town__city") ""))))

/-! ## Catalog construction (App.jsx lines 92-97) -/

/-- The per-row mapping inside `useSheetData`: each cell keyed by the
normalized header, the value trimmed (`(v ?? "").toString().trim()`). -/
def buildRecord (raw : List (String × String)) : Record :=
  raw.map (fun kv => (normaliseKey kv.1, jsTrim kv.2))

/-- `parsed.data.map(...)` over all raw rows. -/
def buildCatalog (raws : List (List (String × String))) : List Record :=
  raws.map buildRecord

/-- Split a character list at a separator (no quoting). -/
def splitChar (sep : Char) : List Char → List (List Char)
  | [] => [[]]
  | c :: cs =>
    match splitChar sep cs with
    | [] => [[c]]
    | g :: gs => if c = sep then [] :: g :: gs else (c :: g) :: gs

/-- Pair headers with field values: missing trailing fields become the
empty string, extra fields are dropped. -/
def pairUp : List String → List String → List (String × String)
  | [], _ => []
  | h :: hs, [] => (h, "") :: pairUp hs []
  | h :: hs, v :: vs => (h, jsTrim v) :: pairUp hs vs

/-- Modelled from the spec: the Tabular Parser (spec section 4.2) stands
in for the Papa Parse library (`Papa.parse(text, { header: true,
skipEmptyLines: true })`), which is not part of src/.  The first
non-skipped line supplies the headers positionally; each subsequent
non-empty line yields one raw row with trimmed values; fully empty
lines are skipped; quoting is not modelled. -/
def parseCSV (text : String) : List (List (String × String)) :=
  match (splitChar '\n' text.data).filter (fun l => l ≠ []) with
  | [] => []
  | header :: dataLines =>
    let hs := (splitChar ',' header).map (fun h => String.mk h)
    dataLines.map (fun line => pairUp hs ((splitChar ',' line).map String.mk))

/-! ## Resilient fetcher (App.jsx lines 7-19, 84-110) -/

/-- Outcome of one network call: transport failure with a message, or a
response with an HTTP status and a body. -/
inductive FetchOutcome where
  | fail (msg : String)
  | resp (status : Nat) (body : String)

/-- `u.replace(/^https?:\/\//, "")`. -/
def stripScheme (u : String) : String :=
  match u.data with
  | 'h' :: 't' :: 't' :: 'p' :: 's' :: ':' :: '/' :: '/' :: rest => ⟨rest⟩
  | 'h' :: 't' :: 't' :: 'p' :: ':' :: '/' :: '/' :: rest => ⟨rest⟩
  | l => ⟨l⟩

/-- Upper-case hexadecimal digit of a value below 16. -/
def hexDigit (n : Nat) : Char :=
  if n < 10 then Char.ofNat (48 + n) else Char.ofNat (55 + n)

/-- Percent-encoding of one byte. -/
def pctEncodeByte (b : Nat) : List Char :=
  ['%', hexDigit (b / 16), hexDigit (b % 16)]

/-- UTF-8 bytes of a code point. -/
def utf8Bytes (n : Nat) : List Nat :=
  if n < 0x80 then [n]
  else if n < 0x800 then [0xC0 + n / 64, 0x80 + n % 64]
  else if n < 0x10000 then
    [0xE0 + n / 4096, 0x80 + (n / 64) % 64, 0x80 + n % 64]
  else
    [0xF0 + n / 262144, 0x80 + (n / 4096) % 64, 0x80 + (n / 64) % 64, 0x80 + n % 64]

/-- Characters `encodeURIComponent` leaves unescaped. -/
def uriUnreserved (c : Char) : Bool :=
  c.isAlphanum || c == '-' || c == '_' || c == '.' || c == '!' ||
    c == '~' || c == '*' || c == '\'' || c == '(' || c == ')'

/-- JS `encodeURIComponent(u)`. -/
def encodeURIComponent (s : String) : String :=
  ⟨(s.data.map (fun c =>
      if uriUnreserved c then [c]
      else ((utf8Bytes c.toNat).map pctEncodeByte).flatten)).flatten⟩

/-- First entry of `CORS_PROXIES` (App.jsx line 17). -/
def corsProxy1 (u : String) : String :=
  "https://r.jina.ai/http/" ++ stripScheme u

/-- Second entry of `CORS_PROXIES` (App.jsx line 18). -/
def corsProxy2 (u : String) : String :=
  "https://api.allorigins.win/raw?url=" ++ encodeURIComponent u

/-- `CORS_PROXIES` (App.jsx lines 16-19). -/
def corsProxies : List (String → String) := [corsProxy1, corsProxy2]

/-- The primary sheet endpoint (App.jsx lines 7-8). -/
def SHEET_CSV_URL : String :=
  "https://docs.google.com/spreadsheets/d/1f6hQNKdqnth8BIATF8UR2TZ-TUWRPCitBCrTLTDeL1g/export?format=csv&gid=1694382803"

/-- One attempt of the fetch loop body (App.jsx lines 89-91): a
transport failure throws its message; a non-ok status (`res.ok` is
status 200-299) throws `HTTP <status>`; otherwise the body text is
returned. -/
def attempt (net : String → FetchOutcome) (u : String) : Except String String :=
  match net u with
  | .fail m => .error m
  | .resp st body =>
    if 200 ≤ st ∧ st < 300 then .ok body else .error ("HTTP " ++ toString st)

/-- The `for (const u of tryUrls)` loop (App.jsx lines 87-110): stop at
the first success; remember the last failure; after exhaustion report
`Could not load sheet. <last message>`. -/
def tryFetch (net : String → FetchOutcome) :
    List String → Option String → Except String String
  | [], lastErr => .error ("Could not load sheet. " ++ lastErr.getD "")
  | u :: rest, _ =>
    match attempt net u with
    | .ok body => .ok body
    | .error m => tryFetch net rest (some m)

/-- `tryUrls = [url, ...CORS_PROXIES.map((fn) => fn(url))]` (line 84). -/
def tryUrls (url : String) : List String :=
  url :: corsProxies.map (fun f => f url)

/-- The whole load: fetch with fallback, then parse and build records
from the successful payload. -/
def loadCatalog (net : String → FetchOutcome) (url : String) :
    Except String (List Record) :=
  (tryFetch net (tryUrls url) none).map (fun text => buildCatalog (parseCSV text))

/-! ## Search and facet pipeline (App.jsx lines 120-161) -/

/-- The searchable keys handed to the index (App.jsx lines 126-137). -/
def searchableKeys : List String :=
  (["brand_name", "slug", "area_town_city", "location_address",
    "website_url", "tags", "extra_tags", "cuisine", "opening_hours",
    "region"]).map normaliseKey

/-- `p` occurs at the head of the second list. -/
def startsWithL : List Char → List Char → Bool
  | [], _ => true
  | _ :: _, [] => false
  | a :: as, b :: bs => a == b && startsWithL as bs

/-- `p` occurs somewhere inside `l`. -/
def occursIn (p : List Char) : List Char → Bool
  | [] => startsWithL p []
  | l@(_ :: rest) => startsWithL p l || occursIn p rest

/-- Modelled from the spec: the per-field match score of the fuse.js
index (spec section 4.6; the library is not part of src/).  The index
reads the row's stored value at the searchable key directly; a field
matches when the lowercased query occurs in the lowercased non-empty
value, scored by length distance (closer matches score lower); a
non-matching field contributes nothing. -/
def fieldScore (r : Record) (q : String) (k : String) : Option Nat :=
  if (rowGet r k).getD "" ≠ "" ∧
      occursIn (jsToLower q).data (jsToLower ((rowGet r k).getD "")).data = true then
    some (((rowGet r k).getD "").data.length - q.data.length +
          (q.data.length - ((rowGet r k).getD "").data.length))
  else none

/-- Least element of a score list, if any. -/
def minScore : List Nat → Option Nat
  | [] => none
  | s :: ss =>
    match minScore ss with
    | none => some s
    | some t => some (min s t)

/-- Modelled from the spec: a record's relevance is its best field
score over the searchable keys; `none` means the record does not match
the query at all. -/
def recordScore (r : Record) (q : String) : Option Nat :=
  minScore (searchableKeys.filterMap (fun k => fieldScore r q k))

/-- Score every row, tagging each match with its original index. -/
def scoreRows (q : String) : Nat → List Record → List (Nat × Nat × Record)
  | _, [] => []
  | i, r :: rs =>
    match recordScore r q with
    | some s => (s, i, r) :: scoreRows q (i + 1) rs
    | none => scoreRows q (i + 1) rs

/-- Ranking order: better score first, ties broken by original index. -/
def rankLE (a b : Nat × Nat × Record) : Bool :=
  Nat.blt a.1 b.1 || (a.1 == b.1 && Nat.ble a.2.1 b.2.1)

/-- Insertion step of the ranking sort. -/
def insertRanked (x : Nat × Nat × Record) :
    List (Nat × Nat × Record) → List (Nat × Nat × Record)
  | [] => [x]
  | y :: ys => if rankLE x y then x :: y :: ys else y :: insertRanked x ys

/-- Stable sort of the scored rows by rank. -/
def sortRanked : List (Nat × Nat × Record) → List (Nat × Nat × Record)
  | [] => []
  | x :: xs => insertRanked x (sortRanked xs)

/-- Modelled from the spec: `fuse.search(q).map((x) => x.item)` — the
matching rows ranked by relevance, ties in original order. -/
def fuseSearch (rows : List Record) (q : String) : List Record :=
  (sortRanked (scoreRows q 0 rows)).map (fun x => x.2.2)

/-- The search stage of the `list` memo (App.jsx lines 151-153):
`let l = rows; if (q.trim()) l = fuse.search(q).map((x) => x.item)`. -/
def searchStage (rows : List Record) (q : String) : List Record :=
  if jsTrim q ≠ "" then fuseSearch rows q else rows

/-- The facet predicate (App.jsx lines 155-158):
`(getCityFromRow(r) || "").toLowerCase() === city.toLowerCase()`. -/
def cityKeep (city : String) (r : Record) : Bool :=
  jsToLower (jsOr (getCityFromRow r) "") == jsToLower city

/-- The facet stage of the `list` memo (App.jsx lines 154-159):
`if (city !== "all") l = l.filter(...)`. -/
def filterByFacet (records : List Record) (city : String) : List Record :=
  if city ≠ "all" then records.filter (cityKeep city) else records

/-- The full `list` memo (App.jsx lines 151-161): search first, facet
filter second. -/
def appList (rows : List Record) (q city : String) : List Record :=
  filterByFacet (searchStage rows q) city

/-! ## Auxiliary lemmas -/

theorem dropWhile_dropWhile {α : Type} (p : α → Bool) (l : List α) :
    (l.dropWhile p).dropWhile p = l.dropWhile p := by
  induction l with
  | nil => rfl
  | cons a t ih =>
    by_cases h : p a
    · simp [List.dropWhile_cons, h, ih]
    · simp [List.dropWhile_cons, h]

theorem head?_dropWhile_false {α : Type} (p : α → Bool) (l : List α) {a : α}
    (h : (l.dropWhile p).head? = some a) : p a = false := by
  induction l with
  | nil => simp at h
  | cons b t ih =>
    by_cases hb : p b
    · rw [List.dropWhile_cons_of_pos hb] at h
      exact ih h
    · rw [List.dropWhile_cons_of_neg hb] at h
      simp only [List.head?_cons, Option.some.injEq] at h
      subst h
      simpa using hb

theorem dropWhile_eq_self_of_head {α : Type} (p : α → Bool) (l : List α)
    (h : ∀ a, l.head? = some a → p a = false) : l.dropWhile p = l := by
  cases l with
  | nil => rfl
  | cons b t =>
    have hb := h b rfl
    simp [List.dropWhile_cons, hb]

theorem getLast?_dropWhile {α : Type} (p : α → Bool) (l : List α)
    (h : l.dropWhile p ≠ []) : (l.dropWhile p).getLast? = l.getLast? := by
  induction l with
  | nil => simp at h
  | cons b t ih =>
    by_cases hb : p b
    · rw [List.dropWhile_cons_of_pos hb] at h ⊢
      rw [ih h]
      have ht : t ≠ [] := by
        intro he
        rw [he] at h
        simp at h
      cases t with
      | nil => exact absurd rfl ht
      | cons c u => simp [List.getLast?_cons_cons]
    · rw [List.dropWhile_cons_of_neg hb]

theorem dropWhile_eq_nil_of_all {α : Type} (p : α → Bool) (l : List α)
    (h : ∀ c ∈ l, p c = true) : l.dropWhile p = [] := by
  induction l with
  | nil => rfl
  | cons b t ih =>
    rw [List.dropWhile_cons_of_pos (by simpa using h b (by simp))]
    exact ih fun c hc => h c (by simp [hc])

theorem dropWhile_eq_self_of_all {α : Type} (p : α → Bool) (l : List α)
    (h : ∀ c ∈ l, p c = false) : l.dropWhile p = l := by
  apply dropWhile_eq_self_of_head
  intro a ha
  cases l with
  | nil => simp at ha
  | cons b t =>
    simp only [List.head?_cons, Option.some.injEq] at ha
    subst ha
    exact h _ (by simp)

theorem trimL_idem (l : List Char) : trimL (trimL l) = trimL l := by
  unfold trimL
  by_cases h2 : (l.dropWhile wsp).reverse.dropWhile wsp = []
  · rw [h2]
    rfl
  · have hstep :
        ((l.dropWhile wsp).reverse.dropWhile wsp).reverse.dropWhile wsp
          = ((l.dropWhile wsp).reverse.dropWhile wsp).reverse := by
      apply dropWhile_eq_self_of_head
      intro a ha
      rw [List.head?_reverse, getLast?_dropWhile wsp _ h2, List.getLast?_reverse] at ha
      exact head?_dropWhile_false wsp l ha
    rw [hstep, List.reverse_reverse, dropWhile_dropWhile]

theorem jsTrim_idem (s : String) : jsTrim (jsTrim s) = jsTrim s :=
  congrArg String.mk (trimL_idem s.data)

theorem trimL_eq_nil_of_all (l : List Char) (h : ∀ c ∈ l, wsp c = true) :
    trimL l = [] := by
  unfold trimL
  rw [dropWhile_eq_nil_of_all wsp l h]
  rfl

theorem trimL_eq_self_of_all (l : List Char) (h : ∀ c ∈ l, wsp c = false) :
    trimL l = l := by
  unfold trimL
  rw [dropWhile_eq_self_of_all wsp l h,
    dropWhile_eq_self_of_all wsp l.reverse (fun c hc => h c (List.mem_reverse.mp hc)),
    List.reverse_reverse]

theorem toNat_ofNat_valid {n : Nat} (h : n.isValidChar) :
    (Char.ofNat n).toNat = n := by
  unfold Char.ofNat
  rw [dif_pos h]
  rfl

theorem toLower_eq (c : Char) :
    c.toLower = if c.toNat ≥ 65 ∧ c.toNat ≤ 90 then Char.ofNat (c.toNat + 32) else c := rfl

theorem toLower_idem (c : Char) : c.toLower.toLower = c.toLower := by
  by_cases h : c.toNat ≥ 65 ∧ c.toNat ≤ 90
  · have hv : Nat.isValidChar (c.toNat + 32) := Or.inl (by omega)
    rw [toLower_eq c, if_pos h, toLower_eq, if_neg (by rw [toNat_ofNat_valid hv]; omega)]
  · rw [toLower_eq c, if_neg h, toLower_eq, if_neg h]

theorem mem_collapseWsAux {c : Char} :
    ∀ (b : Bool) (l : List Char), c ∈ collapseWsAux b l → c = '_' ∨ c ∈ l := by
  intro b l
  induction l generalizing b with
  | nil => intro h; simp [collapseWsAux] at h
  | cons a t ih =>
    intro h
    by_cases ha : wsp a
    · rw [collapseWsAux, if_pos ha] at h
      by_cases hb : b
      · subst hb
        rcases ih true (by simpa using h) with h1 | h1
        · exact Or.inl h1
        · exact Or.inr (by simp [h1])
      · simp only [Bool.not_eq_true] at hb
        subst hb
        rw [if_neg (by simp)] at h
        simp only [List.mem_cons] at h
        rcases h with h1 | h1
        · exact Or.inl h1
        · rcases ih true h1 with h2 | h2
          · exact Or.inl h2
          · exact Or.inr (by simp [h2])
    · rw [collapseWsAux, if_neg ha] at h
      simp only [List.mem_cons] at h
      rcases h with h1 | h1
      · exact Or.inr (by simp [h1])
      · rcases ih false h1 with h2 | h2
        · exact Or.inl h2
        · exact Or.inr (by simp [h2])

theorem collapseWsAux_no_ws {c : Char} :
    ∀ (b : Bool) (l : List Char), c ∈ collapseWsAux b l → wsp c = false := by
  intro b l
  induction l generalizing b with
  | nil => intro h; simp [collapseWsAux] at h
  | cons a t ih =>
    intro h
    by_cases ha : wsp a
    · rw [collapseWsAux, if_pos ha] at h
      by_cases hb : b
      · subst hb
        exact ih true (by simpa using h)
      · simp only [Bool.not_eq_true] at hb
        subst hb
        rw [if_neg (by simp)] at h
        simp only [List.mem_cons] at h
        rcases h with h1 | h1
        · subst h1; rfl
        · exact ih true h1
    · rw [collapseWsAux, if_neg ha] at h
      simp only [List.mem_cons] at h
      rcases h with h1 | h1
      · subst h1; simpa using ha
      · exact ih false h1

theorem collapseWsAux_eq_self (l : List Char) (h : ∀ c ∈ l, wsp c = false) :
    collapseWsAux false l = l := by
  induction l with
  | nil => rfl
  | cons a t ih =>
    rw [collapseWsAux, if_neg (by simp [h a (by simp)])]
    rw [ih fun c hc => h c (by simp [hc])]

theorem toLower_mem_collapse (h : String) :
    ∀ c ∈ collapseWsAux false ((trimL h.data).map Char.toLower),
      Char.toLower c = c := by
  intro c hc
  rcases mem_collapseWsAux false _ hc with h1 | h1
  · subst h1; decide
  · rcases List.mem_map.mp h1 with ⟨d, _, hd⟩
    rw [← hd]
    exact toLower_idem d

theorem normaliseKey_idem (h : String) :
    normaliseKey (normaliseKey h) = normaliseKey h := by
  unfold normaliseKey
  apply congrArg String.mk
  show collapseWsAux false
      ((trimL (collapseWsAux false ((trimL h.data).map Char.toLower))).map Char.toLower)
    = collapseWsAux false ((trimL h.data).map Char.toLower)
  have hnows : ∀ c ∈ collapseWsAux false ((trimL h.data).map Char.toLower),
      wsp c = false := fun c hc => collapseWsAux_no_ws false _ hc
  rw [trimL_eq_self_of_all _ hnows,
    List.map_congr_left (toLower_mem_collapse h), List.map_id',
    collapseWsAux_eq_self _ hnows]

theorem clean_cases (v : String) :
    clean v = "" ∨
      (clean v = jsTrim v ∧ clean v ≠ "" ∧
        badTokens.contains (jsToUpper (clean v)) = false) := by
  unfold clean
  by_cases h1 : jsTrim v = ""
  · rw [if_pos h1]
    exact Or.inl rfl
  · rw [if_neg h1]
    by_cases h2 : badTokens.contains (jsToUpper (jsTrim v)) = true
    · rw [if_pos h2]
      exact Or.inl rfl
    · rw [if_neg h2]
      exact Or.inr ⟨rfl, h1, by simpa using h2⟩

theorem clean_shape (v : String) :
    clean v = "" ∨
      (jsTrim (clean v) = clean v ∧ clean v ≠ "" ∧
        badTokens.contains (jsToUpper (clean v)) = false) := by
  rcases clean_cases v with h | ⟨h1, h2, h3⟩
  · exact Or.inl h
  · refine Or.inr ⟨?_, h2, h3⟩
    rw [h1, jsTrim_idem]

/-! ## Claim theorems -/

/-- C5: sanitization maps every casing variant of a blacklisted sentinel
token (with any surrounding whitespace) to the empty string, and returns
every other non-empty string trimmed but otherwise unchanged. -/
theorem c5_sanitize (s : String) :
    (badTokens.contains (jsToUpper (jsTrim s)) = true → clean s = "") ∧
    (s ≠ "" → badTokens.contains (jsToUpper (jsTrim s)) = false →
      clean s = jsTrim s) := by
  constructor
  · intro hbad
    unfold clean
    by_cases h1 : jsTrim s = ""
    · rw [if_pos h1]
    · rw [if_neg h1, if_pos hbad]
  · intro _ hgood
    unfold clean
    by_cases h1 : jsTrim s = ""
    · rw [if_pos h1, h1]
    · rw [if_neg h1, if_neg (by rw [hgood]; simp)]

/-- Witness for C5: a cased, padded sentinel sanitizes to the empty
string; an ordinary padded string sanitizes to its trim. -/
theorem c5_sanitize_witness :
    (badTokens.contains (jsToUpper (jsTrim "  #n/a ")) = true ∧
      clean "  #n/a " = "") ∧
    (" hello " ≠ "" ∧
      badTokens.contains (jsToUpper (jsTrim " hello ")) = false ∧
      clean " hello " = jsTrim " hello ") :=
  ⟨⟨by decide, (c5_sanitize "  #n/a ").1 (by decide)⟩,
   ⟨by decide, by decide, (c5_sanitize " hello ").2 (by decide) (by decide)⟩⟩

/-- C6: header normalization is idempotent, and empty or whitespace-only
headers normalize to the empty string. -/
theorem c6_normalize_idem (h : String) :
    normaliseKey (normaliseKey h) = normaliseKey h ∧
    ((∀ c ∈ h.data, wsp c = true) → normaliseKey h = "") := by
  refine ⟨normaliseKey_idem h, fun hws => ?_⟩
  unfold normaliseKey
  rw [trimL_eq_nil_of_all h.data hws]
  rfl

/-- Witness for C6: idempotence at a padded mixed-case header, and a
whitespace-only header normalizing to the empty string. -/
theorem c6_normalize_idem_witness :
    normaliseKey (normaliseKey "  Brand   Name ") = normaliseKey "  Brand   Name " ∧
    ((∀ c ∈ ("   " : String).data, wsp c = true) ∧ normaliseKey "   " = "") :=
  ⟨(c6_normalize_idem "  Brand   Name ").1,
   ⟨by decide, (c6_normalize_idem "   ").2 (by decide)⟩⟩

/-- C10: whatever the Record stores, every value read through
`getValFromRow` is the empty string or a trimmed, non-empty string that
is not a blacklisted sentinel under any casing — `clean` is applied at
the resolve boundary. -/
theorem c10_resolve_sanitized (row : Record) (k : String) :
    getValFromRow row k = "" ∨
      (jsTrim (getValFromRow row k) = getValFromRow row k ∧
        getValFromRow row k ≠ "" ∧
        badTokens.contains (jsToUpper (getValFromRow row k)) = false) := by
  unfold getValFromRow
  by_cases h1 : (rowGet row (normaliseKey k)).getD "" ≠ ""
  · rw [if_pos h1]
    exact clean_shape _
  · rw [if_neg h1]
    cases ha : keyAlias (normaliseKey k) with
    | some a => exact clean_shape _
    | none => exact Or.inl rfl

theorem getVal_direct (row : Record) (f s : String)
    (h : rowGet row (normaliseKey f) = some s) (hs : s ≠ "") :
    getValFromRow row f = clean s := by
  unfold getValFromRow
  rw [h, if_pos (show (some s).getD "" ≠ "" from hs)]
  rfl

theorem getVal_aliased (row : Record) (f a : String)
    (hdirect : (rowGet row (normaliseKey f)).getD "" = "")
    (halias : keyAlias (normaliseKey f) = some a) :
    getValFromRow row f = clean ((rowGet row (normaliseKey a)).getD "") := by
  unfold getValFromRow
  rw [if_neg (by rw [hdirect]; simp), halias]

theorem getVal_missing (row : Record) (f : String)
    (hdirect : (rowGet row (normaliseKey f)).getD "" = "")
    (halias : keyAlias (normaliseKey f) = none) :
    getValFromRow row f = "" := by
  unfold getValFromRow
  rw [if_neg (by rw [hdirect]; simp), halias]

/-- C1 counterexample: the Alias Table maps the legacy header
`official website` to the canonical key `website_url`, and the Record —
built from an `Official Website` header — holds that legacy key, yet
resolving the canonical key `website_url` returns the empty string
rather than the legacy value; a record built from a `Website URL`
header resolves to the value, so the two header revisions do not agree. -/
theorem c1_counterexample :
    keyAlias "official website" = some "website_url" ∧
    rowGet [("official_website", "https://x.example")]
      (normaliseKey "official website") = some "https://x.example" ∧
    rowGet [("official_website", "https://x.example")]
      (normaliseKey "website_url") = none ∧
    getValFromRow [("official_website", "https://x.example")] "website_url" = "" ∧
    getValFromRow [("website_url", "https://x.example")] "website_url"
      = "https://x.example" ∧
    ("" : String) ≠ "https://x.example" := by
  decide

/-- C1 amended: the alias table is consulted on the *requested* field
name, not on the Record's keys.  When the normalized request has no
non-empty direct hit and the Alias Table maps it (as a legacy name) to
a canonical key, resolve returns the cleaned Record value stored at
that canonical key; requesting a canonical key never falls back to a
legacy key stored in the Record. -/
theorem c1_alias_direction (row : Record) (f a : String)
    (hdirect : (rowGet row (normaliseKey f)).getD "" = "")
    (halias : keyAlias (normaliseKey f) = some a) :
    getValFromRow row f = clean ((rowGet row (normaliseKey a)).getD "") :=
  getVal_aliased row f a hdirect halias

/-- Witness for C1 amended: a record keyed `region` read through the
legacy name `region/country`. -/
theorem c1_alias_direction_witness :
    (rowGet [("region", "France")] (normaliseKey "region/country")).getD "" = "" ∧
    keyAlias (normaliseKey "region/country") = some "region" ∧
    getValFromRow [("region", "France")] "region/country"
      = clean ((rowGet [("region", "France")] (normaliseKey "region")).getD "") :=
  ⟨by decide, by decide,
    c1_alias_direction [("region", "France")] "region/country" "region"
      (by decide) (by decide)⟩

/-- C2 counterexample: a successful load stores the sentinel token
`#N/A` verbatim inside the Record — sanitization is not applied during
Catalog construction. -/
theorem c2_counterexample :
    loadCatalog (fun _ => FetchOutcome.resp 200 "Region/Country\n#N/A")
      SHEET_CSV_URL = Except.ok [[("region/country", "#N/A")]] ∧
    ("#N/A" : String) ∈ badTokens :=
  ⟨rfl, by decide⟩

/-- C2 amended: every value stored in a built Catalog is a trimmed
string (a non-empty trimmed string or the empty string); trimming — but
not sentinel removal — is applied to every cell during construction, so
sentinel tokens can sit in the Catalog and are only mapped to the empty
string lazily, at read time, by the resolver. -/
theorem c2_stored_trimmed (raws : List (List (String × String)))
    (rec : Record) (kv : String × String)
    (hrec : rec ∈ buildCatalog raws) (hkv : kv ∈ rec) :
    jsTrim kv.2 = kv.2 := by
  rcases List.mem_map.mp hrec with ⟨raw, _, hraw⟩
  subst hraw
  rcases List.mem_map.mp hkv with ⟨kv0, _, hkv0⟩
  rw [← hkv0]
  exact jsTrim_idem kv0.2

/-- Witness for C2 amended: the stored sentinel cell of the
counterexample catalog is itself a trimmed string. -/
theorem c2_stored_trimmed_witness :
    [("region/country", "#N/A")] ∈ buildCatalog [[("Region/Country", " #N/A ")]] ∧
    ("region/country", "#N/A") ∈ ([("region/country", "#N/A")] : Record) ∧
    jsTrim "#N/A" = "#N/A" :=
  ⟨by decide, by decide,
    c2_stored_trimmed [[("Region/Country", " #N/A ")]]
      [("region/country", "#N/A")] ("region/country", "#N/A")
      (by decide) (by decide)⟩

/-- C4 counterexample: `region/country` is present as a key of the
Record (with an empty value), yet resolve does not stop at step (1):
the alias table is consulted and the alias target's value is returned —
JS truthiness sends present-but-empty direct hits to the alias path. -/
theorem c4_counterexample :
    rowGet [("region/country", ""), ("region", "Paris")]
      (normaliseKey "region/country") = some "" ∧
    getValFromRow [("region/country", ""), ("region", "Paris")]
      "region/country" = "Paris" ∧
    ("Paris" : String) ≠ "" := by
  decide

/-- C4 amended: the lookup order is: (1) if `normalize(f)` is present in
the Record with a *non-empty* value, return that value cleaned, without
consulting the alias table; (2) else, if the Alias Table maps
`normalize(f)` to some key, return the Record's cleaned value at that
key (empty when absent); (3) else return the empty string.  A key that
is present with an empty value falls through to the alias table. -/
theorem c4_lookup_order (row : Record) (f : String) :
    (∀ s, rowGet row (normaliseKey f) = some s → s ≠ "" →
      getValFromRow row f = clean s) ∧
    ((rowGet row (normaliseKey f)).getD "" = "" →
      (∀ a, keyAlias (normaliseKey f) = some a →
        getValFromRow row f = clean ((rowGet row (normaliseKey a)).getD "")) ∧
      (keyAlias (normaliseKey f) = none → getValFromRow row f = "")) :=
  ⟨fun s h hs => getVal_direct row f s h hs,
   fun hd => ⟨fun a ha => getVal_aliased row f a hd ha,
              fun ha => getVal_missing row f hd ha⟩⟩

/-- Witness for C4 amended: a non-empty direct hit is returned cleaned. -/
theorem c4_lookup_order_witness :
    rowGet [("tags", " vegan ")] (normaliseKey "tags") = some " vegan " ∧
    (" vegan " : String) ≠ "" ∧
    getValFromRow [("tags", " vegan ")] "tags" = clean " vegan " :=
  ⟨by decide, by decide,
    (c4_lookup_order [("tags", " vegan ")] "tags").1 " vegan "
      (by decide) (by decide)⟩

/-- C3: the load tries the primary endpoint first, then each configured
proxy rewrite in declared order; the first success short-circuits and
its payload is the one parsed into the Catalog; when every attempt
fails the resulting error carries the last attempt's failure message,
not an aggregate. -/
theorem c3_fetch_fallback (net : String → FetchOutcome) (url : String) :
    (∀ b, attempt net url = .ok b →
      loadCatalog net url = .ok (buildCatalog (parseCSV b))) ∧
    (∀ m b, attempt net url = .error m →
      attempt net (corsProxy1 url) = .ok b →
      loadCatalog net url = .ok (buildCatalog (parseCSV b))) ∧
    (∀ m1 m2 b, attempt net url = .error m1 →
      attempt net (corsProxy1 url) = .error m2 →
      attempt net (corsProxy2 url) = .ok b →
      loadCatalog net url = .ok (buildCatalog (parseCSV b))) ∧
    (∀ m1 m2 m3, attempt net url = .error m1 →
      attempt net (corsProxy1 url) = .error m2 →
      attempt net (corsProxy2 url) = .error m3 →
      loadCatalog net url = .error ("Could not load sheet. " ++ m3)) := by
  refine ⟨fun b h1 => ?_, fun m b h1 h2 => ?_,
    fun m1 m2 b h1 h2 h3 => ?_, fun m1 m2 m3 h1 h2 h3 => ?_⟩
  · simp [loadCatalog, tryUrls, corsProxies, tryFetch, h1, Except.map]
  · simp [loadCatalog, tryUrls, corsProxies, tryFetch, h1, h2, Except.map]
  · simp [loadCatalog, tryUrls, corsProxies, tryFetch, h1, h2, h3, Except.map]
  · simp [loadCatalog, tryUrls, corsProxies, tryFetch, h1, h2, h3, Except.map]

/-- A network in which the primary sheet endpoint answers HTTP 500 and
every other URL succeeds with a small CSV payload. -/
def mockNet : String → FetchOutcome := fun u =>
  if u = SHEET_CSV_URL then FetchOutcome.resp 500 ""
  else FetchOutcome.resp 200 "A,B\nx,y"

/-- Witness for C3: the primary endpoint fails with HTTP 500, the first
proxy succeeds, and the load builds the Catalog from the proxy payload. -/
theorem c3_fetch_fallback_witness :
    attempt mockNet SHEET_CSV_URL = .error "HTTP 500" ∧
    attempt mockNet (corsProxy1 SHEET_CSV_URL) = .ok "A,B\nx,y" ∧
    loadCatalog mockNet SHEET_CSV_URL
      = .ok (buildCatalog (parseCSV "A,B\nx,y")) :=
  ⟨rfl, rfl,
    (c3_fetch_fallback mockNet SHEET_CSV_URL).2.1 "HTTP 500" "A,B\nx,y" rfl rfl⟩

theorem recordScore_none (r : Record) (q : String)
    (h : ∀ k ∈ searchableKeys, fieldScore r q k = none) :
    recordScore r q = none := by
  unfold recordScore
  rw [List.filterMap_eq_nil_iff.mpr h]
  rfl

theorem scoreRows_nil_of_none (q : String) (rows : List Record)
    (h : ∀ r ∈ rows, recordScore r q = none) :
    ∀ i, scoreRows q i rows = [] := by
  induction rows with
  | nil => intro i; rfl
  | cons r rs ih =>
    intro i
    show (match recordScore r q with
      | some s => (s, i, r) :: scoreRows q (i + 1) rs
      | none => scoreRows q (i + 1) rs) = []
    rw [h r (by simp)]
    exact ih (fun r' hr' => h r' (by simp [hr'])) (i + 1)

/-- C7: an empty or whitespace-only query bypasses scoring and returns
the whole Catalog in original insertion order; a non-empty query that
matches no searchable field value of any Record returns the empty list
rather than an error. -/
theorem c7_search_empty_query (rows : List Record) (q : String) :
    (jsTrim q = "" → searchStage rows q = rows) ∧
    (jsTrim q ≠ "" →
      (∀ r ∈ rows, ∀ k ∈ searchableKeys, fieldScore r q k = none) →
      searchStage rows q = []) := by
  constructor
  · intro h
    unfold searchStage
    rw [if_neg (by simp [h])]
  · intro hq hnone
    unfold searchStage
    rw [if_pos hq]
    unfold fuseSearch
    rw [scoreRows_nil_of_none q rows
      (fun r hr => recordScore_none r q (hnone r hr)) 0]
    rfl

/-- Witness for C7: a whitespace-only query returns the catalog, and a
query matching nothing returns the empty list. -/
theorem c7_search_empty_query_witness :
    (jsTrim "   " = "" ∧
      searchStage [[("brand_name", "Acme")]] "   " = [[("brand_name", "Acme")]]) ∧
    (jsTrim "zzz" ≠ "" ∧
      (∀ r ∈ [[("brand_name", "Acme")]],
        ∀ k ∈ searchableKeys, fieldScore r "zzz" k = none) ∧
      searchStage [[("brand_name", "Acme")]] "zzz" = []) :=
  ⟨⟨by decide, (c7_search_empty_query [[("brand_name", "Acme")]] "   ").1 (by decide)⟩,
   ⟨by decide, by decide,
    (c7_search_empty_query [[("brand_name", "Acme")]] "zzz").2
      (by decide) (by decide)⟩⟩

theorem jsOr_empty (a : String) : jsOr a "" = a := by
  unfold jsOr
  by_cases h : a = ""
  · rw [if_pos h, h]
  · rw [if_neg h]

/-- C8: the facet filter with the `all` sentinel returns its input
unchanged; with any other selected value it retains exactly the Records
whose resolved facet value equals the selected value case-insensitively
— so selecting `Paris` and `paris` yields identical results. -/
theorem c8_facet_filter (records : List Record) (v : String) :
    filterByFacet records "all" = records ∧
    (v ≠ "all" → ∀ r, r ∈ filterByFacet records v ↔
      (r ∈ records ∧ jsToLower (getCityFromRow r) = jsToLower v)) ∧
    filterByFacet records "Paris" = filterByFacet records "paris" := by
  refine ⟨?_, ?_, ?_⟩
  · unfold filterByFacet
    rw [if_neg (by simp)]
  · intro hv r
    unfold filterByFacet
    rw [if_pos hv, List.mem_filter]
    unfold cityKeep
    rw [jsOr_empty]
    constructor
    · exact fun ⟨h1, h2⟩ => ⟨h1, by simpa using h2⟩
    · exact fun ⟨h1, h2⟩ => ⟨h1, by simpa using h2⟩
  · unfold filterByFacet
    rw [if_pos (by decide), if_pos (by decide)]
    apply List.filter_congr
    intro r _
    unfold cityKeep
    rw [show jsToLower "Paris" = jsToLower "paris" from by decide]

/-- Witness for C8: filtering on `Paris` keeps the Paris record of a
two-record catalog. -/
theorem c8_facet_filter_witness :
    ("Paris" : String) ≠ "all" ∧
    ([("area_town_city", "Paris")] ∈
        filterByFacet
          [[("area_town_city", "Paris")], [("area_town_city", "Lyon")]] "Paris" ↔
      ([("area_town_city", "Paris")] ∈
          [[("area_town_city", "Paris")], [("area_town_city", "Lyon")]] ∧
        jsToLower (getCityFromRow [("area_town_city", "Paris")])
          = jsToLower "Paris")) :=
  ⟨by decide,
    (c8_facet_filter
        [[("area_town_city", "Paris")], [("area_town_city", "Lyon")]] "Paris").2.1
      (by decide) [("area_town_city", "Paris")]⟩

/-- C9: the composed query applies the search stage first and the facet
filter second; the composed result is a sublist of the search result —
survivors keep the search stage's relative order (pure intersection, no
re-ranking) — and a record survives exactly when it is in the search
result and passes the facet predicate (or the facet is `all`). -/
theorem c9_search_then_filter (rows : List Record) (q city : String) :
    appList rows q city = filterByFacet (searchStage rows q) city ∧
    (appList rows q city).Sublist (searchStage rows q) ∧
    (∀ r, r ∈ appList rows q city ↔
      (r ∈ searchStage rows q ∧ (city = "all" ∨ cityKeep city r = true))) := by
  refine ⟨rfl, ?_, ?_⟩
  · unfold appList filterByFacet
    by_cases h : city = "all"
    · rw [if_neg (by simp [h])]
    · rw [if_pos h]
      exact List.filter_sublist _
  · intro r
    unfold appList filterByFacet
    by_cases h : city = "all"
    · rw [if_neg (by simp [h])]
      simp [h]
    · rw [if_pos h]
      simp [List.mem_filter, h]

end QuadranetPortal
